import Mathlib

/-!
Shallow embedding of `src/_wheel2deb/debian.py` (wheel2deb): the dependency
and metadata resolution engine of the wheel-to-Debian-source-package
converter.  Pure fragments of the Python module (regular-expression based
parsers, the platform-tag table, the interpreter dependency construction,
copyright extraction, provider selection and the `search_shlibs_deps`
pipeline) are translated into executable Lean definitions; external
processes (dpkg-shlibdeps, apt-file) are modelled by their observable
inputs and outputs.
-/

namespace Wheel2deb

/-! ### Python character classes (ASCII model)

Python regex `\s` is `[ \t\n\r\x0b\x0c]` for the ASCII inputs considered
here; `\d` is `[0-9]`; `[a-z]` under `re.IGNORECASE` matches both cases.
-/

def pyIsSpace (c : Char) : Bool :=
  c == ' ' || c == '\t' || c == '\n' || c == '\r' || c == '\x0b' || c == '\x0c'

/-- Case-insensitive literal prefix match (`re.IGNORECASE` on a literal):
returns the remaining input after the pattern, if the pattern (given in
lowercase) is a prefix of the input up to case. -/
def stripPrefixCI : List Char → List Char → Option (List Char)
  | [], cs => some cs
  | _ :: _, [] => none
  | p :: ps, c :: cs => if p.toLower == c.toLower then stripPrefixCI ps cs else none

/-! ### DPKG_SHLIBS_RE

`DPKG_SHLIBS_RE = re.compile(r'find library (.+\.so[.\d]*) needed')`.

The matcher below implements Python's leftmost, greedy, backtracking
semantics for this pattern on `List Char`, with `.` matching any character
except `'\n'`.  `findall` scans left to right, resuming after each match.
-/

/-- Literal ` needed` at the end of the pattern: on success returns the
captured group so far and the rest of the input after the literal. -/
def dpkgNeeded (grp : List Char) (cs : List Char) : Option (List Char × List Char) :=
  if (' ' :: ['n', 'e', 'e', 'd', 'e', 'd']).isPrefixOf cs then some (grp, cs.drop 7)
  else none

/-- Greedy `[.\d]*` followed by the literal ` needed`: prefer consuming a
class character, backtracking to the literal when the longer attempt
fails. -/
def dpkgStar (grp : List Char) : List Char → Option (List Char × List Char)
  | [] => dpkgNeeded grp []
  | c :: rest =>
    if c == '.' || c.isDigit then
      match dpkgStar (grp ++ [c]) rest with
      | some r => some r
      | none => dpkgNeeded grp (c :: rest)
    else dpkgNeeded grp (c :: rest)

/-- Literal `\.so` followed by the tail of the pattern. -/
def dpkgSo (grp : List Char) : List Char → Option (List Char × List Char)
  | '.' :: 's' :: 'o' :: rest => dpkgStar (grp ++ ['.', 's', 'o']) rest
  | _ => none

/-- Greedy `.+` (having already consumed at least one character into the
group): prefer consuming one more character, backtracking into `\.so...`
when the longer attempt fails. -/
def dpkgPlus (grp : List Char) : List Char → Option (List Char × List Char)
  | [] => dpkgSo grp []
  | c :: rest =>
    if c != '\n' then
      match dpkgPlus (grp ++ [c]) rest with
      | some r => some r
      | none => dpkgSo grp (c :: rest)
    else dpkgSo grp (c :: rest)

/-- The capturing group `(.+\.so[.\d]*)` followed by ` needed`. -/
def dpkgGroup : List Char → Option (List Char × List Char)
  | [] => none
  | c :: rest => if c != '\n' then dpkgPlus [c] rest else none

/-- Attempt to match `find library (.+\.so[.\d]*) needed` at the head of
the input; on success returns the group and the input after the match. -/
def dpkgMatchAt (cs : List Char) : Option (String × List Char) :=
  if "find library ".toList.isPrefixOf cs then
    match dpkgGroup (cs.drop 13) with
    | some (g, rest) => some (String.mk g, rest)
    | none => none
  else none

/-- `findall` scan: try a match at each position, left to right, resuming
after each match.  Fuel bounds the recursion; the input length is always
sufficient fuel since every step consumes at least one character. -/
def dpkgFindallFuel : Nat → List Char → List String
  | 0, _ => []
  | _ + 1, [] => []
  | n + 1, c :: rest =>
    match dpkgMatchAt (c :: rest) with
    | some (g, rest2) => g :: dpkgFindallFuel n rest2
    | none => dpkgFindallFuel n rest

/-- `DPKG_SHLIBS_RE.findall(s, pos)`: matches are only considered at
positions `≥ pos` (the pattern has no anchors or lookbehind, so dropping
the prefix is equivalent). -/
def dpkgShlibsFindall (s : String) (pos : Nat) : List String :=
  let cs := s.toList.drop pos
  dpkgFindallFuel cs.length cs

/-- The call as written at `debian.py:285`:
`DPKG_SHLIBS_RE.findall(output, re.MULTILINE)`.  The second positional
parameter of `Pattern.findall` is `pos`, not `flags`, and the integer
value of `re.MULTILINE` is 8, so the scan starts at character index 8. -/
def dpkgMissingLibs (output : String) : List String :=
  dpkgShlibsFindall output 8

/-! ### substvars parsing

`parse_substvars` (`debian.py:270-274`) reads `debian/substvars`, drops the
first 15 characters (`"shlibs:Depends="`), and applies
`re.findall(r'([^=\s,()]+)\s?(?:\([^)]+\))?', ...)`: each match captures a
maximal run of non-delimiter characters, then skips an optional single
whitespace and an optional parenthesized version constraint.  The optional
parts always succeed (possibly empty), so the group never backtracks and
maximal-munch scanning is exact.
-/

def svNonDelim (c : Char) : Bool :=
  !(c == '=' || pyIsSpace c || c == ',' || c == '(' || c == ')')

def svFindallFuel : Nat → List Char → List String
  | 0, _ => []
  | _ + 1, [] => []
  | n + 1, c :: rest =>
    if svNonDelim c then
      let run := (c :: rest).takeWhile svNonDelim
      let r1 := (c :: rest).dropWhile svNonDelim
      let r2 := match r1 with
        | d :: t => if pyIsSpace d then t else r1
        | [] => r1
      let r3 := match r2 with
        | '(' :: t =>
          let inner := t.takeWhile (fun x => x != ')')
          if inner.isEmpty then r2
          else match t.drop inner.length with
               | ')' :: u => u
               | _ => r2
        | _ => r2
      String.mk run :: svFindallFuel n r3
    else svFindallFuel n rest

/-- `parse_substvars` applied to the raw file content: drop the 15-character
`shlibs:Depends=` prefix, then extract the package names. -/
def parseSubstvars (content : String) : List String :=
  let cs := content.toList.drop 15
  svFindallFuel cs.length cs

/-! ### COPYRIGHT_RE

```
COPYRIGHT_RE = re.compile(
    r'(?:copyrights?|\s*©|\s*\(c\))[\s:|,]*'
    r'((?=.*[a-z])\d{2,4}(?:(?!all\srights).)+)', re.IGNORECASE)
```

Backtracking notes (each is an exact equivalence, not a simplification of
behaviour): the `\s*` before `©` and `\(c\)` is maximal-munch, because a
shorter run of spaces leaves the cursor on a space character, which is
neither `©` nor `(`; the separator class `[\s:|,]*` is maximal-munch,
because a shorter run leaves the cursor on a class character, which is not
a digit, so `\d{2,4}` fails there; the optional `s` of `copyrights?` is
tried greedily first and falling back to no `s` can never succeed when the
greedy attempt failed, because without the `s` the separator class matches
empty (`s` is not in the class) and `\d{2,4}` fails on `s` — the fallback
is nevertheless implemented, mirroring the engine.  `\d{2,4}` backtracks
from 4 to 2 repetitions against the mandatory `(?:(?!all\srights).)+`
tail, which is final and therefore pure maximal-munch.
-/

/-- `(?!all\srights)` (case-insensitive): does `all`, one whitespace and
`rights` start at this position? -/
def allRightsAt (cs : List Char) : Bool :=
  match stripPrefixCI ['a', 'l', 'l'] cs with
  | some (d :: t) => pyIsSpace d && (stripPrefixCI ['r', 'i', 'g', 'h', 't', 's'] t).isSome
  | _ => false

/-- Lookahead `(?=.*[a-z])` under `re.IGNORECASE`: the rest of the current
line (`.` does not match a newline) contains a letter. -/
def lineHasLetter (cs : List Char) : Bool :=
  (cs.takeWhile (fun c => c != '\n')).any (fun c => c.isAlpha)

/-- The trailing `(?:(?!all\srights).)+` without its one-repetition
minimum: consume characters while they are not a newline and do not start
an `all rights` clause.  Returns the consumed characters and the rest. -/
def crTail : List Char → List Char × List Char
  | [] => ([], [])
  | c :: rest =>
    if c != '\n' && !allRightsAt (c :: rest) then
      let (tl, rs) := crTail rest
      (c :: tl, rs)
    else ([], c :: rest)

/-- One backtracking alternative of `\d{2,4}`: exactly `n` digits, then the
mandatory tail.  Returns the whole captured group and the rest. -/
def crDigitsTry (n : Nat) (cs : List Char) : Option (List Char × List Char) :=
  let ds := cs.take n
  if ds.length == n && ds.all Char.isDigit then
    let (tl, rs) := crTail (cs.drop n)
    if tl.isEmpty then none else some (ds ++ tl, rs)
  else none

/-- The capturing group `((?=.*[a-z])\d{2,4}(?:(?!all\srights).)+)`. -/
def crGroup (cs : List Char) : Option (List Char × List Char) :=
  if lineHasLetter cs then
    match crDigitsTry 4 cs with
    | some r => some r
    | none =>
      match crDigitsTry 3 cs with
      | some r => some r
      | none => crDigitsTry 2 cs
  else none

/-- The separator class `[\s:|,]`. -/
def crClassChar (c : Char) : Bool :=
  pyIsSpace c || c == ':' || c == '|' || c == ','

/-- After one of the copyright markers: skip the separators, then the
capturing group. -/
def crAfterMarker (cs : List Char) : Option (List Char × List Char) :=
  crGroup (cs.dropWhile crClassChar)

/-- Alternation branch `copyrights?` (case-insensitive, greedy optional
`s`, with the engine's fallback to dropping the `s`). -/
def crBranchCopyright (cs : List Char) : Option (List Char × List Char) :=
  match stripPrefixCI ['c', 'o', 'p', 'y', 'r', 'i', 'g', 'h', 't'] cs with
  | none => none
  | some rest =>
    match rest with
    | c :: rest2 =>
      if c.toLower == 's' then
        match crAfterMarker rest2 with
        | some r => some r
        | none => crAfterMarker rest
      else crAfterMarker rest
    | [] => crAfterMarker rest

/-- Alternation branch `\s*©`. -/
def crBranchCSym (cs : List Char) : Option (List Char × List Char) :=
  match cs.dropWhile pyIsSpace with
  | '©' :: rest => crAfterMarker rest
  | _ => none

/-- Alternation branch `\s*\(c\)` (case-insensitive). -/
def crBranchParenC (cs : List Char) : Option (List Char × List Char) :=
  match cs.dropWhile pyIsSpace with
  | '(' :: c :: ')' :: rest => if c.toLower == 'c' then crAfterMarker rest else none
  | _ => none

/-- Attempt a match of `COPYRIGHT_RE` at the head of the input, trying the
alternation branches in the pattern's order. -/
def crMatchAt (cs : List Char) : Option (List Char × List Char) :=
  match crBranchCopyright cs with
  | some r => some r
  | none =>
    match crBranchCSym cs with
    | some r => some r
    | none => crBranchParenC cs

/-- `findall` scan for `COPYRIGHT_RE`, collecting the group captures. -/
def crFindallFuel : Nat → List Char → List String
  | 0, _ => []
  | _ + 1, [] => []
  | n + 1, c :: rest =>
    match crMatchAt (c :: rest) with
    | some (g, rest2) => String.mk g :: crFindallFuel n rest2
    | none => crFindallFuel n rest

/-- `re.findall(COPYRIGHT_RE, content)` as used at `debian.py:182`. -/
def pyCopyrightFindall (s : String) : List String :=
  crFindallFuel s.toList.length s.toList

/-- `SourcePackage.copyright`, lines 173-184: gather the captures of all
license texts into a set and return them as a sorted list
(`sorted(list(copyrights))`, ascending lexicographic order).  The Python
set is modelled by deduplication followed by a sort: since the elements
are pairwise distinct after deduplication and the order is linear, the
sorted list is independent of the set's enumeration order. -/
def extractCopyrights (texts : List String) : List String :=
  List.insertionSort (· ≤ ·) (texts.flatMap pyCopyrightFindall).dedup

/-! ### Provider selection (apt-file candidates)

`debian.py:296-312`: the candidates are a Python `set`, so the order in
which they are enumerated into the subsequent list comprehension is not
specified; the functions below therefore take the enumeration as a list
and the claims quantify over its permutations.  The filter drops packages
whose last three characters are `dbg` (`p[-3:] != 'dbg'`); `sorted(...,
key=len)` is a stable sort by name length; the first element is picked.
-/

/-- Python `p[-3:]`: the last three characters (the whole string when it is
shorter). -/
def pyLastThree (s : String) : String := s.drop (s.length - 3)

/-- `[p for p in packages if p[-3:] != 'dbg']`. -/
def removeDbg (ps : List String) : List String :=
  ps.filter (fun p => !(pyLastThree p == "dbg"))

/-- The comparison used by `sorted(packages, key=len)`. -/
def lenLE (a b : String) : Prop := a.length ≤ b.length

instance : DecidableRel lenLE :=
  fun a b => inferInstanceAs (Decidable (a.length ≤ b.length))

instance : IsTotal String lenLE :=
  ⟨fun a b => Nat.le_total a.length b.length⟩

instance : IsTrans String lenLE :=
  ⟨fun _ _ _ hab hbc => Nat.le_trans hab hbc⟩

/-- `sorted(packages, key=len)`: Python's sort is stable, and a stable
sort is uniquely determined by the key, so the (stable) insertion sort
computes exactly the same list. -/
def sortByLen (ps : List String) : List String := List.insertionSort lenLE ps

/-- The selection for one missing library: filter the debug packages, then
pick the head of the length-sorted list; `none` when no candidate remains
(the library is skipped with a warning, the conversion does not fail). -/
def selectProvider (ps : List String) : Option String :=
  (sortByLen (removeDbg ps)).head?

/-! ### search_shlibs_deps (`debian.py:262-317`)

The two external processes are modelled by their observable behaviour:
`substvars0` / `substvarsAfter` are the contents of `debian/substvars`
before the pipeline starts and after the analyzer has run (when it runs);
`dpkgOut` is the analyzer's stdout; `aptCandidates lib` is an enumeration
of the candidate set `set(APT_FILE_RE.findall(output))` for `apt-file
search lib`.  The result records the final `build_deps` set and which
external commands were invoked.  `shlibdeps` and `build_deps` are Python
sets; the per-library loop only inserts into them, so its iteration order
is irrelevant and the missing libraries are iterated in first-occurrence
order.
-/

structure ShlibsResult where
  buildDeps : Finset String
  dpkgInvoked : Bool
  aptLibs : Finset String

/-- `{p+':'+self.arch for p in shlibdeps}`. -/
def tagArch (arch : String) (s : Finset String) : Finset String :=
  s.image (fun p => p ++ ":" ++ arch)

/-- The `shlibdeps` contribution of one `parse_substvars` call: the parsed
packages when the file exists, nothing otherwise. -/
def substvarsDeps : Option String → Finset String
  | some c => (parseSubstvars c).toFinset
  | none => ∅

def searchShlibsDeps (substvars0 substvarsAfter : Option String)
    (libDirs : List String) (dpkgOut : String)
    (aptCandidates : String → List String) (arch : String)
    (buildDeps0 : Finset String) : ShlibsResult :=
  if libDirs ≠ [] ∧ substvarsDeps substvars0 = ∅ then
    let missing := (dpkgMissingLibs dpkgOut).dedup
    let deps2 := (substvarsDeps substvars0 ∪ substvarsDeps substvarsAfter) ∪
      (missing.filterMap (fun lib => selectProvider (aptCandidates lib))).toFinset
    ⟨buildDeps0 ∪ tagArch arch deps2, true, missing.toFinset⟩
  else
    ⟨buildDeps0 ∪ tagArch arch (substvarsDeps substvars0), false, ∅⟩

/-! ### Architecture mapping (`DEBIAN_VERS_ARCH`, `debian.py:23-31,72-76`) -/

/-- The dictionary `DEBIAN_VERS_ARCH` as an exact-match lookup. -/
def lookupArch (t : String) : Option String :=
  if t = "manylinux1_x86_64" then some "amd64"
  else if t = "manylinux1_i686" then some "i686"
  else if t = "linux_armv7l" then some "armhf"
  else if t = "linux_armv6l" then some "armhf"
  else if t = "linux_x86_64" then some "amd64"
  else if t = "linux_i686" then some "amd64"
  else if t = "any" then some "all"
  else none

/-- The keys of `DEBIAN_VERS_ARCH`. -/
def archKeys : List String :=
  ["manylinux1_x86_64", "manylinux1_i686", "linux_armv7l", "linux_armv6l",
   "linux_x86_64", "linux_i686", "any"]

/-- The closed vocabulary of emitted architectures. -/
def validArchs : List String := ["amd64", "i686", "armhf", "all"]

/-- Lines 72-76: known tags map through the table, unknown tags fall back
to `all` with a warning (`logger.error('unknown platform tag, assuming
arch=all')`); the boolean records whether the warning was signalled. -/
def resolveArchitecture (tag : String) : String × Bool :=
  match lookupArch tag with
  | some a => (a, false)
  | none => ("all", true)

/-! ### Interpreter dependency (`debian.py:84-96`) -/

/-- The optional version range declared by the wheel for the interpreter
family (`wheel.version_range(self.pyvers)`). -/
structure VRange where
  min : Option String
  max : Option String

/-- Lines 84-92: `self.depends` starts as `['%s:any' % self.interpreter]`;
when a range is declared, `%s (<< max)` is appended first (bare
interpreter name, no `:any`), then `%s (>= min~)`. -/
def buildDepends (interpreter : String) (vrange : Option VRange) : List String :=
  (interpreter ++ ":any") ::
    (match vrange with
     | none => []
     | some v =>
       (match v.max with
        | some m => [interpreter ++ " (<< " ++ m ++ ")"]
        | none => []) ++
       (match v.min with
        | some m => [interpreter ++ " (>= " ++ m ++ "~)"]
        | none => []))

/-- Lines 94-96: the Python-level dependencies and the user-supplied extra
dependencies are appended after the interpreter constraint. -/
def runtimeDependencies (interpreter : String) (vrange : Option VRange)
    (pyDeps ctxDeps : List String) : List String :=
  buildDepends interpreter vrange ++ pyDeps ++ ctxDeps


/-! ## Theorems -/

/-- Helper: when `x` is the strictly unique shortest element, the stable
length-sort puts it first, whatever the input order. -/
theorem head_sortByLen_of_min (ps : List String) (x : String) (hx : x ∈ ps)
    (hmin : ∀ y ∈ ps, y ≠ x → x.length < y.length) :
    (sortByLen ps).head? = some x := by
  have hperm : (sortByLen ps).Perm ps := List.perm_insertionSort lenLE ps
  have hs : List.Sorted lenLE (sortByLen ps) := List.sorted_insertionSort lenLE ps
  cases hh : sortByLen ps with
  | nil =>
    exfalso
    have hin : x ∈ sortByLen ps := hperm.mem_iff.mpr hx
    rw [hh] at hin
    exact (List.not_mem_nil x) hin
  | cons a t =>
    have hax : a ∈ ps := hperm.mem_iff.mp (by rw [hh]; exact List.mem_cons_self a t)
    by_cases hcase : a = x
    · simp [hcase]
    · exfalso
      have hxlen : x.length < a.length := hmin a hax hcase
      have hxin : x ∈ sortByLen ps := hperm.mem_iff.mpr hx
      rw [hh] at hxin
      rcases List.mem_cons.mp hxin with h1 | h2
      · exact hcase h1.symm
      · rw [hh] at hs
        have h3 : a.length ≤ x.length := (List.pairwise_cons.mp hs).1 x h2
        omega

/-- C1: if the substvars artifact exists with parseable (non-empty)
content when `search_shlibs_deps` runs, dpkg-shlibdeps is never invoked,
apt-file is never invoked, and the dependencies added to `build_deps` are
exactly the parsed content, each package tagged with the target
architecture. -/
theorem substvars_cache_short_circuit (c : String) (hc : parseSubstvars c ≠ [])
    (after : Option String) (libDirs : List String) (dpkgOut : String)
    (aptCandidates : String → List String) (arch : String) (bd0 : Finset String) :
    (searchShlibsDeps (some c) after libDirs dpkgOut aptCandidates arch bd0).dpkgInvoked
      = false ∧
    (searchShlibsDeps (some c) after libDirs dpkgOut aptCandidates arch bd0).aptLibs
      = ∅ ∧
    (searchShlibsDeps (some c) after libDirs dpkgOut aptCandidates arch bd0).buildDeps
      = bd0 ∪ tagArch arch (parseSubstvars c).toFinset := by
  have h0 : substvarsDeps (some c) ≠ ∅ := by
    simpa [substvarsDeps, List.toFinset_eq_empty_iff] using hc
  have hcond : ¬ (libDirs ≠ [] ∧ substvarsDeps (some c) = ∅) := fun hand => h0 hand.2
  unfold searchShlibsDeps
  rw [if_neg hcond]
  exact ⟨rfl, rfl, rfl⟩

/-- Witness for C1 at a concrete artifact content; the analyzer output and
the apt-file candidates are non-trivial and demonstrably ignored. -/
theorem substvars_cache_short_circuit_witness :
    parseSubstvars "shlibs:Depends=libfoo1 (>= 1.2), libbar2" ≠ [] ∧
    ((searchShlibsDeps (some "shlibs:Depends=libfoo1 (>= 1.2), libbar2") none
        ["libdir"] "find library libz.so needed" (fun _ => ["libz1"]) "amd64"
        {"debhelper"}).dpkgInvoked = false ∧
     (searchShlibsDeps (some "shlibs:Depends=libfoo1 (>= 1.2), libbar2") none
        ["libdir"] "find library libz.so needed" (fun _ => ["libz1"]) "amd64"
        {"debhelper"}).aptLibs = ∅ ∧
     (searchShlibsDeps (some "shlibs:Depends=libfoo1 (>= 1.2), libbar2") none
        ["libdir"] "find library libz.so needed" (fun _ => ["libz1"]) "amd64"
        {"debhelper"}).buildDeps
       = {"debhelper"} ∪ tagArch "amd64"
           (parseSubstvars "shlibs:Depends=libfoo1 (>= 1.2), libbar2").toFinset) :=
  ⟨by decide,
   substvars_cache_short_circuit "shlibs:Depends=libfoo1 (>= 1.2), libbar2"
     (by decide) none ["libdir"] "find library libz.so needed"
     (fun _ => ["libz1"]) "amd64" {"debhelper"}⟩

/-- C2: for the candidate set {libfoo-dev, libfoo1, libfoo1-dbg} (in any
enumeration order), the debug candidate is filtered out first, the
shortest remaining name `libfoo1` is selected over `libfoo-dev`, and an
empty post-filter candidate set yields no selection (the library is
skipped, not a failure). -/
theorem provider_selection_libfoo (ps : List String)
    (h : ps.Perm ["libfoo-dev", "libfoo1", "libfoo1-dbg"]) :
    (removeDbg ps).Perm ["libfoo-dev", "libfoo1"] ∧
    selectProvider ps = some "libfoo1" ∧
    ∀ qs : List String, removeDbg qs = [] → selectProvider qs = none := by
  have hf : (removeDbg ps).Perm (removeDbg ["libfoo-dev", "libfoo1", "libfoo1-dbg"]) :=
    h.filter _
  have hce : removeDbg ["libfoo-dev", "libfoo1", "libfoo1-dbg"]
      = ["libfoo-dev", "libfoo1"] := by decide
  rw [hce] at hf
  refine ⟨hf, ?_, ?_⟩
  · unfold selectProvider
    apply head_sortByLen_of_min
    · exact hf.mem_iff.mpr (by decide)
    · intro y hy hne
      have hy2 : y ∈ ["libfoo-dev", "libfoo1"] := hf.mem_iff.mp hy
      rcases List.mem_cons.mp hy2 with h1 | h2
      · subst h1; decide
      · rcases List.mem_cons.mp h2 with h1 | h1
        · exact absurd h1 hne
        · exact absurd h1 (List.not_mem_nil y)
  · intro qs hq
    unfold selectProvider
    rw [hq]
    rfl

/-- Witness for C2 at the canonical enumeration order. -/
theorem provider_selection_libfoo_witness :
    selectProvider ["libfoo-dev", "libfoo1", "libfoo1-dbg"] = some "libfoo1" :=
  (provider_selection_libfoo ["libfoo-dev", "libfoo1", "libfoo1-dbg"]
    (List.Perm.refl _)).2.1

/-- C3, counterexample: two enumeration orders of the same two-candidate
set {liba1, libb1} (equal name lengths) make the selection pick different
packages, so the selection is not a function of the candidate set alone. -/
theorem provider_selection_order_dependent :
    (["liba1", "libb1"] : List String).Perm ["libb1", "liba1"] ∧
    selectProvider ["liba1", "libb1"] ≠ selectProvider ["libb1", "liba1"] := by
  constructor
  · exact List.Perm.swap "libb1" "liba1" []
  · decide

/-- C3, amended: the selection is deterministic (independent of the set's
enumeration order) whenever the post-filter candidate set has a strictly
unique shortest name, which is then the pick. -/
theorem provider_selection_deterministic_unique_min (ps₁ ps₂ : List String)
    (h : ps₁.Perm ps₂) (x : String) (hx : x ∈ removeDbg ps₁)
    (hmin : ∀ y ∈ removeDbg ps₁, y ≠ x → x.length < y.length) :
    selectProvider ps₁ = some x ∧ selectProvider ps₂ = some x := by
  have hf : (removeDbg ps₁).Perm (removeDbg ps₂) := h.filter _
  constructor
  · exact head_sortByLen_of_min _ _ hx hmin
  · apply head_sortByLen_of_min
    · exact hf.mem_iff.mp hx
    · intro y hy hne
      exact hmin y (hf.mem_iff.mpr hy) hne

/-- Witness for the amended C3 at a concrete pair of enumerations. -/
theorem provider_selection_deterministic_unique_min_witness :
    selectProvider ["libfoo-dev", "libfoo1"] = some "libfoo1" ∧
    selectProvider ["libfoo1", "libfoo-dev"] = some "libfoo1" :=
  provider_selection_deterministic_unique_min _ _
    (List.Perm.swap "libfoo1" "libfoo-dev" []) "libfoo1" (by decide) (by decide)

/-- C4: the code passes `re.MULTILINE` (integer value 8) as the `pos`
argument of `Pattern.findall`, so a `find library ... needed` diagnostic
at the very start of the analyzer output is NOT captured, although the
pattern does match there (position 0 scanning captures it). -/
theorem dpkg_findall_start_skipped :
    dpkgMissingLibs "find library libfoo.so needed" = [] ∧
    dpkgShlibsFindall "find library libfoo.so needed" 0 = ["libfoo.so"] := by
  constructor
  · rfl
  · rfl

/-- C5, counterexample: with range (min=3.2, max=none) the produced list is
`[python3:any, python3 (>= 3.2~)]`; there is no single base specifier
`b` with the claimed shape `[b, b ++ " (>= 3.2~)"]`, because the first
element carries the `:any` qualifier and the constraint element does
not. -/
theorem interpreter_depends_base_qualifier_mismatch :
    buildDepends "python3" (some ⟨some "3.2", none⟩)
      = ["python3:any", "python3 (>= 3.2~)"] ∧
    ¬ ∃ b : String, ["python3:any", "python3 (>= 3.2~)"] = [b, b ++ " (>= 3.2~)"] := by
  refine ⟨rfl, ?_⟩
  rintro ⟨b, hb⟩
  injection hb with h1 h2
  injection h2 with h2 h3
  subst h1
  exact absurd h2 (by decide)

/-- C5, amended: the three cases produce exactly `[interp:any,
interp (>= min~)]`, `[interp:any, interp (<< max)]` and `[interp:any]`:
the base element carries the `:any` qualifier, the constraint elements use
the bare interpreter name. -/
theorem interpreter_depends_cases (interp minV maxV : String) :
    buildDepends interp (some ⟨some minV, none⟩)
      = [interp ++ ":any", interp ++ " (>= " ++ minV ++ "~)"] ∧
    buildDepends interp (some ⟨none, some maxV⟩)
      = [interp ++ ":any", interp ++ " (<< " ++ maxV ++ ")"] ∧
    buildDepends interp none = [interp ++ ":any"] :=
  ⟨rfl, rfl, rfl⟩

/-- C6, counterexample: on the license sentence the extractor captures
`"2020 Jane Doe, "` — the trailing separator `", "` is kept, there is no
trimming — so the claimed trimmed capture `"2020 Jane Doe"` is not among
the captures. -/
theorem copyright_capture_untrimmed :
    pyCopyrightFindall "Copyright (c) 2020 Jane Doe, All rights reserved."
      = ["2020 Jane Doe, "] ∧
    "2020 Jane Doe" ∉
      pyCopyrightFindall "Copyright (c) 2020 Jane Doe, All rights reserved." := by
  have h : pyCopyrightFindall "Copyright (c) 2020 Jane Doe, All rights reserved."
      = ["2020 Jane Doe, "] := rfl
  refine ⟨h, ?_⟩
  rw [h]
  decide

/-- C6, amended: for the license text "Copyright (c) 2020 Jane Doe, All
rights reserved." the extractor captures exactly `"2020 Jane Doe, "`
(untrimmed, with the trailing comma and space), which excludes the `All
rights reserved` clause. -/
theorem copyright_capture_jane :
    extractCopyrights ["Copyright (c) 2020 Jane Doe, All rights reserved."]
      = ["2020 Jane Doe, "] := by
  decide

/-- C7: copyright extraction is order-independent (any permutation of the
license texts yields the same result), idempotent (processing the same
texts twice changes nothing), and its result is duplicate-free and sorted
in ascending lexicographic order. -/
theorem copyright_extraction_order_independent (ts₁ ts₂ : List String)
    (h : ts₁.Perm ts₂) :
    extractCopyrights ts₁ = extractCopyrights ts₂ ∧
    extractCopyrights (ts₁ ++ ts₁) = extractCopyrights ts₁ ∧
    (extractCopyrights ts₁).Nodup ∧
    List.Sorted (· ≤ ·) (extractCopyrights ts₁) := by
  refine ⟨?_, ?_, ?_, List.sorted_insertionSort _ _⟩
  · exact List.eq_of_perm_of_sorted
      ((List.perm_insertionSort _ _).trans
        (((h.flatMap_right pyCopyrightFindall).dedup).trans
          (List.perm_insertionSort _ _).symm))
      (List.sorted_insertionSort _ _)
      (List.sorted_insertionSort _ _)
  · exact List.eq_of_perm_of_sorted
      ((List.perm_insertionSort _ _).trans
        (((List.perm_ext_iff_of_nodup (List.nodup_dedup _) (List.nodup_dedup _)).mpr
            (fun a => by simp [List.flatMap_append])).trans
          (List.perm_insertionSort _ _).symm))
      (List.sorted_insertionSort _ _)
      (List.sorted_insertionSort _ _)
  · exact ((List.perm_insertionSort _ _).nodup_iff).mpr (List.nodup_dedup _)

/-- Witness for C7 at two concrete license texts in both orders. -/
theorem copyright_extraction_order_independent_witness :
    extractCopyrights ["©  2020 bob", "(C) 1999 ann"]
      = extractCopyrights ["(C) 1999 ann", "©  2020 bob"] ∧
    extractCopyrights
        (["©  2020 bob", "(C) 1999 ann"] ++ ["©  2020 bob", "(C) 1999 ann"])
      = extractCopyrights ["©  2020 bob", "(C) 1999 ann"] ∧
    (extractCopyrights ["©  2020 bob", "(C) 1999 ann"]).Nodup ∧
    List.Sorted (· ≤ ·) (extractCopyrights ["©  2020 bob", "(C) 1999 ann"]) :=
  copyright_extraction_order_independent _ _
    (List.Perm.swap "(C) 1999 ann" "©  2020 bob" [])

/-- C8: however the descriptor is completed, the first element of the
runtime dependency list is the interpreter dependency specifier
`interp:any`; appending the discovered Python dependencies and the
user-supplied extra dependencies never displaces it. -/
theorem runtime_depends_head_interpreter (interp : String) (vrange : Option VRange)
    (pyDeps ctxDeps : List String) :
    (runtimeDependencies interp vrange pyDeps ctxDeps).head?
      = some (interp ++ ":any") := rfl

/-- C9: every tag in the fixed table resolves to its exact mapped value
with no warning; every tag outside the table resolves to the `all`
sentinel with a warning; consequently the resolved architecture always
lies in the closed vocabulary. -/
theorem arch_resolution (tag : String) :
    (resolveArchitecture "manylinux1_x86_64" = ("amd64", false) ∧
     resolveArchitecture "manylinux1_i686" = ("i686", false) ∧
     resolveArchitecture "linux_armv7l" = ("armhf", false) ∧
     resolveArchitecture "linux_armv6l" = ("armhf", false) ∧
     resolveArchitecture "linux_x86_64" = ("amd64", false) ∧
     resolveArchitecture "linux_i686" = ("amd64", false) ∧
     resolveArchitecture "any" = ("all", false)) ∧
    (tag ∉ archKeys → resolveArchitecture tag = ("all", true)) ∧
    (resolveArchitecture tag).1 ∈ validArchs := by
  refine ⟨by decide, ?_, ?_⟩
  · intro h
    simp only [archKeys, List.mem_cons, List.not_mem_nil, or_false, not_or] at h
    obtain ⟨h1, h2, h3, h4, h5, h6, h7⟩ := h
    simp [resolveArchitecture, lookupArch, h1, h2, h3, h4, h5, h6, h7]
  · unfold resolveArchitecture lookupArch
    split_ifs <;> simp [validArchs]

/-- Witness for C9 at a concrete unknown tag. -/
theorem arch_resolution_witness :
    ("win32" ∉ archKeys) ∧ resolveArchitecture "win32" = ("all", true) :=
  ⟨by decide, (arch_resolution "win32").2.1 (by decide)⟩

/-- C10: in the fixed table the 32-bit tag `linux_i686` maps to `amd64`,
the same value as `linux_x86_64`, while `manylinux1_i686` maps to `i686`;
the two 32-bit x86 tags therefore disagree. -/
theorem arch_table_i686_quirk :
    lookupArch "linux_i686" = some "amd64" ∧
    lookupArch "linux_x86_64" = some "amd64" ∧
    lookupArch "manylinux1_i686" = some "i686" ∧
    lookupArch "linux_i686" ≠ lookupArch "manylinux1_i686" := by decide

end Wheel2deb
